import Mathlib

/-!
Verification of the attendance-management core: a shallow embedding of
`src/utils/constants.js`, `src/services/excelService.js` (attendance service
part) and `src/utils/calculations.js`, together with theorems settling the
frozen claims about the summary engine, the calendar helper, the code
registry, the record mutators and the consecutive-absence scanner.

Conventions of the embedding:
* A JavaScript attendance object `{ day: code, ... }` is an association list
  `List (Nat × String)` with unique keys; `attGet` models property lookup,
  `attSet` models property assignment (an existing key keeps its slot, a new
  key is appended, matching JS object key order), `attDel` models `delete`.
* JS numbers are embedded as `Nat` where the source only ever stores
  non-negative integers, as `Int` where `-1` sentinels or subtraction occur,
  and as `Rat` for `totalPresent`, the one counter that accumulates the
  fractional `0.5` half-day contribution (every value arising here is a small
  multiple of 1/2, hence exactly representable by a JS float, so `Rat`
  arithmetic and `Math.floor` agree with the float computation).
* `Array.prototype.findIndex` / `indexOf` (returning `-1` when absent) are
  modelled by `jsFindIndex`, and `arr[i]` on a possibly negative index by
  `jsGet`.
* `new Date(year, monthIndex, day).getDay()` is modelled by `jsGetDay`:
  the two-digit-year rule (0..99 ↦ 1900+year), month rollover for the
  `monthIndex = -1` case, and the proleptic-Gregorian weekday (0 = Sunday)
  via Sakamoto's method.
-/

/-- JS `String.prototype.toUpperCase` on the ASCII range: uppercase every
character (identical to `String.toUpper`, spelled via `List.map` so that the
kernel can evaluate it on concrete inputs). -/
def toUpperCase (s : String) : String :=
  String.mk (s.data.map Char.toUpper)

/-- Attendance mapping: JS object from day-of-month to attendance code. -/
abbrev Attendance := List (Nat × String)

/-- Property lookup `attendance[day]`: `none` models `undefined`. -/
def attGet (attendance : Attendance) (day : Nat) : Option String :=
  (attendance.find? (fun p => p.1 == day)).map Prod.snd

/-- Property assignment `attendance[day] = code`: an existing key keeps its
slot, a new key is appended (JS object key order for integer-like keys). -/
def attSet (attendance : Attendance) (day : Nat) (code : String) : Attendance :=
  if attendance.any (fun p => p.1 == day) then
    attendance.map (fun p => if p.1 == day then (day, code) else p)
  else
    attendance ++ [(day, code)]

/-- `delete attendance[day]`. -/
def attDel (attendance : Attendance) (day : Nat) : Attendance :=
  attendance.filter (fun p => p.1 != day)

/-- JS `Array.prototype.findIndex`: index of the first match, `-1` if none. -/
def jsFindIndex {α : Type} (p : α → Bool) : List α → Int
  | [] => -1
  | a :: l =>
    if p a then 0
    else
      let r := jsFindIndex p l
      if r = -1 then -1 else r + 1

/-- JS `arr[i]` for a possibly negative (hence out-of-range) index. -/
def jsGet {α : Type} (l : List α) (i : Int) : Option α :=
  if i < 0 then none else l[i.toNat]?

/-- The nine attendance codes: the keys of `ATTENDANCE_CODES` in
`src/utils/constants.js` (labels and colors are UI-only and omitted). -/
def ATTENDANCE_CODES : List String :=
  ["P", "A", "O", "S", "H", "N", "L", "HD", "WFH"]

/-- `normalizeAttendanceCode` from `src/utils/constants.js`: empty input is
falsy and yields the empty string; otherwise uppercase, map `a` to `A`, keep
a registered code, drop anything else. -/
def normalizeAttendanceCode (code : String) : String :=
  if code = "" then ("")
  else
    let upperCode := toUpperCase code
    if upperCode = "A" then ("A")
    else if ATTENDANCE_CODES.contains upperCode then upperCode
    else ("")

/-- `MONTHS` from `src/utils/constants.js`, as (value, days) pairs. -/
def MONTHS : List (String × Nat) :=
  [("Jan", 31), ("Feb", 28), ("Mar", 31), ("Apr", 30), ("May", 31),
   ("Jun", 30), ("Jul", 31), ("Aug", 31), ("Sep", 30), ("Oct", 31),
   ("Nov", 30), ("Dec", 31)]

/-- The bare month-name list used by `getSundaysInMonth` and others. -/
def MONTH_NAMES : List String :=
  ["Jan", "Feb", "Mar", "Apr", "May", "Jun",
   "Jul", "Aug", "Sep", "Oct", "Nov", "Dec"]

/-- `getDaysInMonth` from `src/utils/constants.js`: `findIndex` on `MONTHS`,
February gets the leap-year rule, otherwise `MONTHS[monthIndex]?.days || 31`
(every stored day count is truthy, so `|| 31` only fires for `undefined`). -/
def getDaysInMonth (month : String) (year : Nat) : Nat :=
  let monthIndex : Int := jsFindIndex (fun m => m.1 == month) MONTHS
  if monthIndex = 1 then
    if (year % 4 == 0 && year % 100 != 0) || year % 400 == 0 then 29 else 28
  else
    ((jsGet MONTHS monthIndex).map Prod.snd).getD 31

/-- The `new Date(y, m, d)` constructor maps a year argument 0..99 to
1900 + year. -/
def jsDateYear (year : Nat) : Nat :=
  if year ≤ 99 then 1900 + year else year

/-- Weekday (0 = Sunday) of a proleptic-Gregorian civil date with month in
1..12, Sakamoto's method with floor division so every year is handled. -/
def dayOfWeek (year : Int) (month : Nat) (day : Nat) : Nat :=
  let t : List Int := [0, 3, 2, 5, 0, 3, 5, 1, 4, 6, 2, 4]
  let y := if month < 3 then year - 1 else year
  ((y + Int.fdiv y 4 - Int.fdiv y 100 + Int.fdiv y 400
      + t.getD (month - 1) 0 + day).emod 7).toNat

/-- `new Date(year, monthIndex, day).getDay()` for the dates this code
builds: two-digit-year rule, then rollover of `monthIndex` (which is `-1`
when the month name was not found, giving December of the previous year). -/
def jsGetDay (year : Nat) (monthIndex : Int) (day : Nat) : Nat :=
  let y : Int := (jsDateYear year : Int) + Int.fdiv monthIndex 12
  let m : Nat := (Int.emod monthIndex 12).toNat + 1
  dayOfWeek y m day

/-- `getSundaysInMonth` from `src/services/excelService.js`: all days of the
month whose weekday is 0. -/
def getSundaysInMonth (month : String) (year : Nat) : List Nat :=
  let monthIndex : Int := jsFindIndex (fun m => m == month) MONTH_NAMES
  let daysInMonth := getDaysInMonth month year
  (List.range' 1 daysInMonth).filter (fun day => jsGetDay year monthIndex day == 0)

/-- `getHolidaysInMonth` from `src/services/excelService.js`: a static table
keyed by month name; the `year` parameter is accepted and ignored, and
`holidays[month] || []` yields `[]` for unknown months. -/
def getHolidaysInMonth (month : String) (_year : Nat) : List Nat :=
  let holidays : List (String × List Nat) :=
    [("Jan", [1, 26]), ("Feb", []), ("Mar", [21]), ("Apr", [14]),
     ("May", [1]), ("Jun", []), ("Jul", []), ("Aug", [15]),
     ("Sep", []), ("Oct", [2, 24]), ("Nov", [12]), ("Dec", [25])]
  ((holidays.find? (fun p => p.1 == month)).map Prod.snd).getD []

/-- The ten summary counters of an employee.  All are JS numbers in the
source; `totalPresent` is the only one that can hold a fractional value
(0.5 per half-day) before the final floor, hence `Rat`; `totalWorkingDays`
is assigned exactly once, from `Math.floor`, hence `Int`; the rest only
ever take unit increments, hence `Nat`. -/
structure Summaries where
  totalPresent : Rat
  totalOff : Nat
  totalSundays : Nat
  totalHolidays : Nat
  totalNightShift : Nat
  totalHolyDayWorking : Nat
  totalOffDayWorking : Nat
  totalAbsent : Nat
  totalOnLeave : Nat
  totalWorkingDays : Int
  deriving Repr, DecidableEq

/-- The all-zero summary object (initial value in `calculateSummaries` and
`DEFAULT_EMPLOYEE.summaries`). -/
def zeroSummaries : Summaries :=
  { totalPresent := 0, totalOff := 0, totalSundays := 0, totalHolidays := 0,
    totalNightShift := 0, totalHolyDayWorking := 0, totalOffDayWorking := 0,
    totalAbsent := 0, totalOnLeave := 0, totalWorkingDays := 0 }

/-- One iteration of the first pass of `calculateSummaries`: skip a missing
or empty code, then the `switch` on the uppercased code (an if-chain here;
the cases are mutually exclusive string literals, so the two agree). -/
def pass1step (attendance : Attendance) (s : Summaries) (day : Nat) : Summaries :=
  match attGet attendance day with
  | none => s
  | some code =>
    if code = "" then s
    else
      let upperCode := toUpperCase code
      if upperCode = "P" then { s with totalPresent := s.totalPresent + 1 }
      else if upperCode = "A" then { s with totalAbsent := s.totalAbsent + 1 }
      else if upperCode = "O" then { s with totalOff := s.totalOff + 1 }
      else if upperCode = "S" then { s with totalSundays := s.totalSundays + 1 }
      else if upperCode = "H" then { s with totalHolidays := s.totalHolidays + 1 }
      else if upperCode = "N" then { s with totalNightShift := s.totalNightShift + 1 }
      else if upperCode = "L" then { s with totalOnLeave := s.totalOnLeave + 1 }
      else if upperCode = "WFH" then { s with totalPresent := s.totalPresent + 1 }
      else if upperCode = "HD" then { s with totalPresent := s.totalPresent + 1/2 }
      else s

/-- One iteration of the second pass of `calculateSummaries`: holy-day
working (Sunday or holiday worked with P/N/WFH) and off-day working
(previous day coded O, current day worked with P/N/WFH, only for day > 1). -/
def pass2step (attendance : Attendance) (sundays holidays : List Nat)
    (s : Summaries) (day : Nat) : Summaries :=
  match attGet attendance day with
  | none => s
  | some code =>
    if code = "" then s
    else
      let upperCode := toUpperCase code
      let s1 :=
        if (sundays.contains day || holidays.contains day)
            && (upperCode == "P" || upperCode == "N" || upperCode == "WFH") then
          { s with totalHolyDayWorking := s.totalHolyDayWorking + 1 }
        else s
      if day > 1 then
        let prevDayCode := (attGet attendance (day - 1)).map toUpperCase
        if prevDayCode == some ("O")
            && (upperCode == "P" || upperCode == "N" || upperCode == "WFH") then
          { s1 with totalOffDayWorking := s1.totalOffDayWorking + 1 }
        else s1
      else s1

/-- `calculateSummaries` from `src/services/excelService.js`: two passes over
days 1..daysInMonth, then
`totalWorkingDays = Math.floor(totalPresent + totalOff + totalSundays +
totalHolidays + totalNightShift + totalHolyDayWorking*2 +
totalOffDayWorking*0.5)` with the still-unfloored `totalPresent`, and
finally `totalPresent = Math.floor(totalPresent)`. -/
def calculateSummaries (attendance : Attendance) (month : String) (year : Nat) : Summaries :=
  let daysInMonth := getDaysInMonth month year
  let sundays := getSundaysInMonth month year
  let holidays := getHolidaysInMonth month year
  let s1 := (List.range' 1 daysInMonth).foldl (pass1step attendance) zeroSummaries
  let s2 := (List.range' 1 daysInMonth).foldl (pass2step attendance sundays holidays) s1
  let totalWorkingDays : Int :=
    Rat.floor (s2.totalPresent + (s2.totalOff : Rat) + (s2.totalSundays : Rat)
      + (s2.totalHolidays : Rat) + (s2.totalNightShift : Rat)
      + (s2.totalHolyDayWorking : Rat) * 2
      + (s2.totalOffDayWorking : Rat) * (1/2))
  { s2 with
      totalWorkingDays := totalWorkingDays
      totalPresent := (Rat.floor s2.totalPresent : Int) }

/-- Spec-side contribution of one day to the pass-1 `totalPresent`
accumulator: 1 for P, 1 for WFH, 0.5 for HD, 0 otherwise. -/
def presentContrib (attendance : Attendance) (day : Nat) : Rat :=
  match attGet attendance day with
  | none => 0
  | some code =>
    let upperCode := toUpperCase code
    if upperCode = "P" then 1
    else if upperCode = "WFH" then 1
    else if upperCode = "HD" then 1/2
    else 0

/-- Spec-side unfloored `totalPresent` after pass 1: the sum of the per-day
contributions over days 1..daysInMonth. -/
def presentUnfloored (attendance : Attendance) (daysInMonth : Nat) : Rat :=
  ((List.range' 1 daysInMonth).map (presentContrib attendance)).sum

/-- A day is worked when its (uppercased) code is P, N or WFH. -/
def workingCode (attendance : Attendance) (day : Nat) : Bool :=
  match attGet attendance day with
  | none => false
  | some code =>
    let upperCode := toUpperCase code
    upperCode == "P" || upperCode == "N" || upperCode == "WFH"

/-- Spec-side predicate for a holy-day-working increment at `day`. -/
def holyDayWorkingPred (attendance : Attendance) (sundays holidays : List Nat)
    (day : Nat) : Bool :=
  (sundays.contains day || holidays.contains day) && workingCode attendance day

/-- Spec-side predicate for an off-day-working increment at `day`: only past
day 1, previous day coded O, current day worked. -/
def offDayWorkingPred (attendance : Attendance) (day : Nat) : Bool :=
  decide (1 < day) && ((attGet attendance (day - 1)).map toUpperCase == some ("O"))
    && workingCode attendance day

/-- Heap of attendance objects.  The record mutators of
`src/services/excelService.js` copy an employee with a shallow spread
`{ ...employee }`, so the copy shares the very attendance object of the
input; assignments through the copy are visible through the original
reference.  A `Store` holds the attendance objects and an employee record
holds an index into it, making that sharing explicit. -/
structure Store where
  atts : List Attendance
  deriving Repr, DecidableEq

/-- Dereference an attendance object. -/
def Store.get (s : Store) (r : Nat) : Attendance :=
  (s.atts[r]?).getD []

/-- Overwrite the attendance object behind reference `r` (in-place mutation
of the shared object). -/
def Store.set (s : Store) (r : Nat) (a : Attendance) : Store :=
  ⟨s.atts.set r a⟩

/-- Allocate a fresh attendance object (a `{}` literal in the source). -/
def Store.alloc (s : Store) (a : Attendance) : Store × Nat :=
  (⟨s.atts ++ [a]⟩, s.atts.length)

/-- An employee record (the fields the claims touch); `attendance` is a
reference into the `Store`. -/
structure Employee where
  empId : String
  employeeName : String
  attendance : Nat
  summaries : Summaries
  deriving Repr, DecidableEq

/-- `updateEmployeeAttendance` from `src/services/excelService.js`:
`{ ...employee }` (the attendance reference is shared), then
`attendance[day] = code.toUpperCase()` or `delete attendance[day]` for a
falsy/empty code — mutating the shared object — then summaries are
recomputed from the updated attendance. -/
def updateEmployeeAttendance (store : Store) (employee : Employee) (day : Nat)
    (code : String) (month : String) (year : Nat) : Store × Employee :=
  let updatedEmployee := employee
  let att := store.get updatedEmployee.attendance
  let att' :=
    if code ≠ "" then attSet att day (toUpperCase code)
    else attDel att day
  let store' := store.set updatedEmployee.attendance att'
  (store', { updatedEmployee with summaries := calculateSummaries att' month year })

/-- `bulkUpdateAttendance` from `src/services/excelService.js`: the same
shared-object update applied once per entry, then one recomputation. -/
def bulkUpdateAttendance (store : Store) (employee : Employee)
    (updates : List (Nat × String)) (month : String) (year : Nat) : Store × Employee :=
  let att := store.get employee.attendance
  let att' := updates.foldl
    (fun a u => if u.2 ≠ "" then attSet a u.1 (toUpperCase u.2) else attDel a u.1) att
  let store' := store.set employee.attendance att'
  (store', { employee with summaries := calculateSummaries att' month year })

/-- `!attendance[day]`: true when the key is absent or its value is the
empty string (both are falsy). -/
def isFalsyAt (attendance : Attendance) (day : Nat) : Bool :=
  match attGet attendance day with
  | none => true
  | some code => code == ""

/-- One step of the fill loops of `markWeekends` / `markHolidays`:
`if (!attendance[day]) attendance[day] = code`. -/
def fillStep (code : String) (attendance : Attendance) (day : Nat) : Attendance :=
  if isFalsyAt attendance day then attSet attendance day code else attendance

/-- `markWeekends` from `src/services/excelService.js`: fill every Sunday
whose current value is falsy with `code` (default `'S'` at call sites),
mutating the shared attendance object, then recompute summaries. -/
def markWeekends (store : Store) (employee : Employee) (month : String)
    (year : Nat) (code : String) : Store × Employee :=
  let updatedEmployee := employee
  let sundays := getSundaysInMonth month year
  let att := store.get updatedEmployee.attendance
  let att' := sundays.foldl (fillStep code) att
  let store' := store.set updatedEmployee.attendance att'
  (store', { updatedEmployee with summaries := calculateSummaries att' month year })

/-- `markHolidays` from `src/services/excelService.js`: same as
`markWeekends` with the holiday table and default code `'H'`. -/
def markHolidays (store : Store) (employee : Employee) (month : String)
    (year : Nat) (code : String) : Store × Employee :=
  let updatedEmployee := employee
  let holidays := getHolidaysInMonth month year
  let att := store.get updatedEmployee.attendance
  let att' := holidays.foldl (fillStep code) att
  let store' := store.set updatedEmployee.attendance att'
  (store', { updatedEmployee with summaries := calculateSummaries att' month year })

/-- `clearAttendance` from `src/services/excelService.js`: a fresh empty
attendance object and the all-zero summary; the input's attendance object
is not touched. -/
def clearAttendance (store : Store) (employee : Employee) : Store × Employee :=
  let alloc := store.alloc []
  (alloc.1, { employee with attendance := alloc.2, summaries := zeroSummaries })

/-- One closed run of consecutive absences as recorded by
`calculateConsecutiveAbsences` (`start` is computed by subtraction in JS,
hence `Int`; `end` is a Lean keyword, hence `endDay`). -/
structure AbsenceRun where
  start : Int
  endDay : Nat
  count : Nat
  deriving Repr, DecidableEq

/-- Result of `calculateConsecutiveAbsences`. -/
structure ConsecutiveAbsences where
  maxConsecutive : Nat
  totalInstances : Nat
  instances : List AbsenceRun
  deriving Repr, DecidableEq

/-- Loop state of `calculateConsecutiveAbsences`. -/
structure ConsecState where
  maxConsecutive : Nat
  currentConsecutive : Nat
  totalInstances : Nat
  instances : List AbsenceRun
  deriving Repr, DecidableEq

/-- `attendance[day]?.toUpperCase() === 'A'`. -/
def isACode (attendance : Attendance) (day : Nat) : Bool :=
  match attGet attendance day with
  | none => false
  | some code => toUpperCase code == "A"

/-- The `forEach` body of `calculateConsecutiveAbsences`, walking the sorted
key list; the lookahead `days[index + 1]` is the head of the remaining
list, and `index === days.length - 1` is the remaining list being empty. -/
def consecGo (attendance : Attendance) : ConsecState → List Nat → ConsecState
  | st, [] => st
  | st, day :: rest =>
    let st' :=
      if isACode attendance day then
        let cur := st.currentConsecutive + 1
        let nextIsA :=
          match rest with
          | [] => false
          | next :: _ => isACode attendance next
        if rest.isEmpty || !nextIsA then
          if cur > 0 then
            { maxConsecutive := max st.maxConsecutive cur
              currentConsecutive := 0
              totalInstances := st.totalInstances + 1
              instances := st.instances ++ [⟨(day : Int) - cur + 1, day, cur⟩] }
          else { st with currentConsecutive := cur }
        else { st with currentConsecutive := cur }
      else { st with currentConsecutive := 0 }
    consecGo attendance st' rest

/-- Insert into a sorted list (ascending). -/
def insertSorted (x : Nat) : List Nat → List Nat
  | [] => [x]
  | y :: l => if x ≤ y then x :: y :: l else y :: insertSorted x l

/-- Ascending numeric sort, modelling `.sort((a, b) => a - b)`. -/
def sortAscending (l : List Nat) : List Nat :=
  l.foldr insertSorted []

/-- `calculateConsecutiveAbsences` from `src/utils/calculations.js`:
`Object.keys(attendance)` (unique keys, modelled by `dedup`) sorted
ascending, then the run-accumulating scan. -/
def calculateConsecutiveAbsences (attendance : Attendance) : ConsecutiveAbsences :=
  let days := sortAscending ((attendance.map Prod.fst).dedup)
  let st := consecGo attendance ⟨0, 0, 0, []⟩ days
  ⟨st.maxConsecutive, st.totalInstances, st.instances⟩

/-- The uppercased code stored at a day (if any). -/
def isCodeDay (attendance : Attendance) (c : String) (day : Nat) : Bool :=
  (attGet attendance day).map toUpperCase == some c

/-- A one-object store and an employee pointing at it, used as concrete
inputs in witnesses and counterexamples. -/
def baseStore (a : Attendance) : Store := ⟨[a]⟩

/-- The concrete employee record over `baseStore`'s single object. -/
def baseEmployee : Employee :=
  { empId := "QR-417", employeeName := "Sample Employee",
    attendance := 0, summaries := zeroSummaries }

theorem toUpperCase_empty : toUpperCase ("") = "" := rfl

theorem attGet_nil (day : Nat) : attGet [] day = none := rfl

theorem attGet_cons_self (att : Attendance) (day : Nat) (c : String) :
    attGet ((day, c) :: att) day = some c := by
  simp [attGet, List.find?_cons]

theorem attGet_cons_ne (att : Attendance) (day x : Nat) (c : String)
    (h : x ≠ day) : attGet ((day, c) :: att) x = attGet att x := by
  simp [attGet, List.find?_cons, Ne.symm h]

theorem foldl_proj_count {σ : Type} (step : σ → Nat → σ) (proj : σ → Nat)
    (p : Nat → Bool)
    (hstep : ∀ s d, proj (step s d) = proj s + (if p d then 1 else 0)) :
    ∀ (l : List Nat) (s : σ), proj (l.foldl step s) = proj s + l.countP p := by
  intro l
  induction l with
  | nil => intro s; simp
  | cons a l ih =>
    intro s
    rw [List.foldl_cons, ih, hstep, List.countP_cons]
    split <;> omega

theorem foldl_proj_sum {σ : Type} (step : σ → Nat → σ) (proj : σ → Rat)
    (w : Nat → Rat)
    (hstep : ∀ s d, proj (step s d) = proj s + w d) :
    ∀ (l : List Nat) (s : σ), proj (l.foldl step s) = proj s + (l.map w).sum := by
  intro l
  induction l with
  | nil => intro s; simp
  | cons a l ih =>
    intro s
    rw [List.foldl_cons, ih, hstep, List.map_cons, List.sum_cons]
    ring

theorem foldl_proj_const {σ β : Type} (step : σ → Nat → σ) (proj : σ → β)
    (hstep : ∀ s d, proj (step s d) = proj s) :
    ∀ (l : List Nat) (s : σ), proj (l.foldl step s) = proj s := by
  intro l
  induction l with
  | nil => intro s; simp
  | cons a l ih => intro s; rw [List.foldl_cons, ih, hstep]

theorem foldl_congrOn {σ : Type} (step1 step2 : σ → Nat → σ) :
    ∀ (l : List Nat), (∀ s d, d ∈ l → step1 s d = step2 s d) →
      ∀ s, l.foldl step1 s = l.foldl step2 s := by
  intro l
  induction l with
  | nil => intro _ s; rfl
  | cons a l ih =>
    intro h s
    rw [List.foldl_cons, List.foldl_cons, h s a (by simp)]
    exact ih (fun s d hd => h s d (by simp [hd])) _

theorem pass1step_totalPresent (att : Attendance) (s : Summaries) (d : Nat) :
    (pass1step att s d).totalPresent = s.totalPresent + presentContrib att d := by
  unfold pass1step presentContrib
  cases h : attGet att d with
  | none => simp [h]
  | some code =>
    simp only [h]
    by_cases hc : code = ""
    · subst hc; simp [toUpperCase_empty]
    · simp only [if_neg hc]
      split_ifs <;> simp_all

theorem pass1step_totalOff (att : Attendance) (s : Summaries) (d : Nat) :
    (pass1step att s d).totalOff
      = s.totalOff + (if isCodeDay att ("O") d then 1 else 0) := by
  unfold pass1step isCodeDay
  cases h : attGet att d with
  | none => simp [h]
  | some code =>
    simp only [h, Option.map_some']
    by_cases hc : code = ""
    · subst hc; simp [toUpperCase_empty]
    · simp only [if_neg hc]
      split_ifs <;> simp_all

theorem pass1step_totalSundays (att : Attendance) (s : Summaries) (d : Nat) :
    (pass1step att s d).totalSundays
      = s.totalSundays + (if isCodeDay att ("S") d then 1 else 0) := by
  unfold pass1step isCodeDay
  cases h : attGet att d with
  | none => simp [h]
  | some code =>
    simp only [h, Option.map_some']
    by_cases hc : code = ""
    · subst hc; simp [toUpperCase_empty]
    · simp only [if_neg hc]
      split_ifs <;> simp_all

theorem pass1step_totalHolidays (att : Attendance) (s : Summaries) (d : Nat) :
    (pass1step att s d).totalHolidays
      = s.totalHolidays + (if isCodeDay att ("H") d then 1 else 0) := by
  unfold pass1step isCodeDay
  cases h : attGet att d with
  | none => simp [h]
  | some code =>
    simp only [h, Option.map_some']
    by_cases hc : code = ""
    · subst hc; simp [toUpperCase_empty]
    · simp only [if_neg hc]
      split_ifs <;> simp_all

theorem pass1step_totalNightShift (att : Attendance) (s : Summaries) (d : Nat) :
    (pass1step att s d).totalNightShift
      = s.totalNightShift + (if isCodeDay att ("N") d then 1 else 0) := by
  unfold pass1step isCodeDay
  cases h : attGet att d with
  | none => simp [h]
  | some code =>
    simp only [h, Option.map_some']
    by_cases hc : code = ""
    · subst hc; simp [toUpperCase_empty]
    · simp only [if_neg hc]
      split_ifs <;> simp_all

theorem pass1step_totalAbsent (att : Attendance) (s : Summaries) (d : Nat) :
    (pass1step att s d).totalAbsent
      = s.totalAbsent + (if isCodeDay att ("A") d then 1 else 0) := by
  unfold pass1step isCodeDay
  cases h : attGet att d with
  | none => simp [h]
  | some code =>
    simp only [h, Option.map_some']
    by_cases hc : code = ""
    · subst hc; simp [toUpperCase_empty]
    · simp only [if_neg hc]
      split_ifs <;> simp_all

theorem pass1step_totalOnLeave (att : Attendance) (s : Summaries) (d : Nat) :
    (pass1step att s d).totalOnLeave
      = s.totalOnLeave + (if isCodeDay att ("L") d then 1 else 0) := by
  unfold pass1step isCodeDay
  cases h : attGet att d with
  | none => simp [h]
  | some code =>
    simp only [h, Option.map_some']
    by_cases hc : code = ""
    · subst hc; simp [toUpperCase_empty]
    · simp only [if_neg hc]
      split_ifs <;> simp_all

theorem pass1step_preserves (att : Attendance) (s : Summaries) (d : Nat) :
    (pass1step att s d).totalHolyDayWorking = s.totalHolyDayWorking
    ∧ (pass1step att s d).totalOffDayWorking = s.totalOffDayWorking
    ∧ (pass1step att s d).totalWorkingDays = s.totalWorkingDays := by
  unfold pass1step
  cases h : attGet att d with
  | none => simp [h]
  | some code =>
    simp only [h]
    by_cases hc : code = ""
    · subst hc; simp
    · simp only [if_neg hc]
      split_ifs <;> simp_all

theorem pass2step_totalHolyDayWorking (att : Attendance) (sund holi : List Nat)
    (s : Summaries) (d : Nat) :
    (pass2step att sund holi s d).totalHolyDayWorking
      = s.totalHolyDayWorking
        + (if holyDayWorkingPred att sund holi d then 1 else 0) := by
  unfold pass2step holyDayWorkingPred workingCode
  cases h : attGet att d with
  | none => simp [h]
  | some code =>
    simp only [h]
    by_cases hc : code = ""
    · subst hc; simp [toUpperCase_empty]
    · simp only [if_neg hc]
      split_ifs <;> simp_all

theorem pass2step_totalOffDayWorking (att : Attendance) (sund holi : List Nat)
    (s : Summaries) (d : Nat) :
    (pass2step att sund holi s d).totalOffDayWorking
      = s.totalOffDayWorking + (if offDayWorkingPred att d then 1 else 0) := by
  unfold pass2step
  cases h : attGet att d with
  | none => simp [h, offDayWorkingPred, workingCode]
  | some code =>
    simp only [h]
    by_cases hc : code = ""
    · subst hc
      simp [offDayWorkingPred, workingCode, h, toUpperCase_empty]
    · simp only [if_neg hc]
      have hpred : offDayWorkingPred att d
          = (decide (d > 1)
            && (((attGet att (d - 1)).map toUpperCase == some ("O"))
              && (toUpperCase code == "P" || toUpperCase code == "N"
                  || toUpperCase code == "WFH"))) := by
        unfold offDayWorkingPred workingCode
        simp only [h]
        rw [Bool.and_assoc]
      rw [hpred]
      cases hp : attGet att (d - 1) with
      | none => split_ifs <;> simp_all
      | some prev => split_ifs <;> simp_all <;> omega

theorem pass2step_preserves (att : Attendance) (sund holi : List Nat)
    (s : Summaries) (d : Nat) :
    (pass2step att sund holi s d).totalPresent = s.totalPresent
    ∧ (pass2step att sund holi s d).totalOff = s.totalOff
    ∧ (pass2step att sund holi s d).totalSundays = s.totalSundays
    ∧ (pass2step att sund holi s d).totalHolidays = s.totalHolidays
    ∧ (pass2step att sund holi s d).totalNightShift = s.totalNightShift
    ∧ (pass2step att sund holi s d).totalAbsent = s.totalAbsent
    ∧ (pass2step att sund holi s d).totalOnLeave = s.totalOnLeave
    ∧ (pass2step att sund holi s d).totalWorkingDays = s.totalWorkingDays := by
  unfold pass2step
  cases h : attGet att d with
  | none => simp [h]
  | some code =>
    simp only [h]
    by_cases hc : code = ""
    · subst hc; simp
    · simp only [if_neg hc]
      split_ifs <;> simp_all

theorem calculateSummaries_char (att : Attendance) (month : String) (year : Nat) :
    (calculateSummaries att month year).totalOff
        = (List.range' 1 (getDaysInMonth month year)).countP (isCodeDay att ("O"))
    ∧ (calculateSummaries att month year).totalSundays
        = (List.range' 1 (getDaysInMonth month year)).countP (isCodeDay att ("S"))
    ∧ (calculateSummaries att month year).totalHolidays
        = (List.range' 1 (getDaysInMonth month year)).countP (isCodeDay att ("H"))
    ∧ (calculateSummaries att month year).totalNightShift
        = (List.range' 1 (getDaysInMonth month year)).countP (isCodeDay att ("N"))
    ∧ (calculateSummaries att month year).totalAbsent
        = (List.range' 1 (getDaysInMonth month year)).countP (isCodeDay att ("A"))
    ∧ (calculateSummaries att month year).totalOnLeave
        = (List.range' 1 (getDaysInMonth month year)).countP (isCodeDay att ("L"))
    ∧ (calculateSummaries att month year).totalHolyDayWorking
        = (List.range' 1 (getDaysInMonth month year)).countP
            (holyDayWorkingPred att (getSundaysInMonth month year)
              (getHolidaysInMonth month year))
    ∧ (calculateSummaries att month year).totalOffDayWorking
        = (List.range' 1 (getDaysInMonth month year)).countP (offDayWorkingPred att)
    ∧ (calculateSummaries att month year).totalPresent
        = ((presentUnfloored att (getDaysInMonth month year)).floor : Rat)
    ∧ (calculateSummaries att month year).totalWorkingDays
        = (presentUnfloored att (getDaysInMonth month year)
            + ((List.range' 1 (getDaysInMonth month year)).countP (isCodeDay att ("O")) : Rat)
            + ((List.range' 1 (getDaysInMonth month year)).countP (isCodeDay att ("S")) : Rat)
            + ((List.range' 1 (getDaysInMonth month year)).countP (isCodeDay att ("H")) : Rat)
            + ((List.range' 1 (getDaysInMonth month year)).countP (isCodeDay att ("N")) : Rat)
            + ((List.range' 1 (getDaysInMonth month year)).countP
                (holyDayWorkingPred att (getSundaysInMonth month year)
                  (getHolidaysInMonth month year)) : Rat) * 2
            + ((List.range' 1 (getDaysInMonth month year)).countP (offDayWorkingPred att) : Rat)
              * (1/2)).floor := by
  have hOff : ∀ s0,
      ((List.range' 1 (getDaysInMonth month year)).foldl
          (pass2step att (getSundaysInMonth month year) (getHolidaysInMonth month year)) s0).totalOff
        = s0.totalOff := fun s0 =>
    foldl_proj_const _ _ (fun s d =>
      (pass2step_preserves att (getSundaysInMonth month year) (getHolidaysInMonth month year) s d).2.1) _ s0
  have hSun : ∀ s0,
      ((List.range' 1 (getDaysInMonth month year)).foldl
          (pass2step att (getSundaysInMonth month year) (getHolidaysInMonth month year)) s0).totalSundays
        = s0.totalSundays := fun s0 =>
    foldl_proj_const _ _ (fun s d =>
      (pass2step_preserves att (getSundaysInMonth month year) (getHolidaysInMonth month year) s d).2.2.1) _ s0
  have hHol : ∀ s0,
      ((List.range' 1 (getDaysInMonth month year)).foldl
          (pass2step att (getSundaysInMonth month year) (getHolidaysInMonth month year)) s0).totalHolidays
        = s0.totalHolidays := fun s0 =>
    foldl_proj_const _ _ (fun s d =>
      (pass2step_preserves att (getSundaysInMonth month year) (getHolidaysInMonth month year) s d).2.2.2.1) _ s0
  have hNig : ∀ s0,
      ((List.range' 1 (getDaysInMonth month year)).foldl
          (pass2step att (getSundaysInMonth month year) (getHolidaysInMonth month year)) s0).totalNightShift
        = s0.totalNightShift := fun s0 =>
    foldl_proj_const _ _ (fun s d =>
      (pass2step_preserves att (getSundaysInMonth month year) (getHolidaysInMonth month year) s d).2.2.2.2.1) _ s0
  have hAbs : ∀ s0,
      ((List.range' 1 (getDaysInMonth month year)).foldl
          (pass2step att (getSundaysInMonth month year) (getHolidaysInMonth month year)) s0).totalAbsent
        = s0.totalAbsent := fun s0 =>
    foldl_proj_const _ _ (fun s d =>
      (pass2step_preserves att (getSundaysInMonth month year) (getHolidaysInMonth month year) s d).2.2.2.2.2.1) _ s0
  have hLea : ∀ s0,
      ((List.range' 1 (getDaysInMonth month year)).foldl
          (pass2step att (getSundaysInMonth month year) (getHolidaysInMonth month year)) s0).totalOnLeave
        = s0.totalOnLeave := fun s0 =>
    foldl_proj_const _ _ (fun s d =>
      (pass2step_preserves att (getSundaysInMonth month year) (getHolidaysInMonth month year) s d).2.2.2.2.2.2.1) _ s0
  have hPre : ∀ s0,
      ((List.range' 1 (getDaysInMonth month year)).foldl
          (pass2step att (getSundaysInMonth month year) (getHolidaysInMonth month year)) s0).totalPresent
        = s0.totalPresent := fun s0 =>
    foldl_proj_const _ _ (fun s d =>
      (pass2step_preserves att (getSundaysInMonth month year) (getHolidaysInMonth month year) s d).1) _ s0
  have hP1Off : ∀ s0,
      ((List.range' 1 (getDaysInMonth month year)).foldl (pass1step att) s0).totalOff
        = s0.totalOff + (List.range' 1 (getDaysInMonth month year)).countP (isCodeDay att ("O")) :=
    fun s0 => foldl_proj_count _ _ _ (pass1step_totalOff att) _ s0
  have hP1Sun : ∀ s0,
      ((List.range' 1 (getDaysInMonth month year)).foldl (pass1step att) s0).totalSundays
        = s0.totalSundays + (List.range' 1 (getDaysInMonth month year)).countP (isCodeDay att ("S")) :=
    fun s0 => foldl_proj_count _ _ _ (pass1step_totalSundays att) _ s0
  have hP1Hol : ∀ s0,
      ((List.range' 1 (getDaysInMonth month year)).foldl (pass1step att) s0).totalHolidays
        = s0.totalHolidays + (List.range' 1 (getDaysInMonth month year)).countP (isCodeDay att ("H")) :=
    fun s0 => foldl_proj_count _ _ _ (pass1step_totalHolidays att) _ s0
  have hP1Nig : ∀ s0,
      ((List.range' 1 (getDaysInMonth month year)).foldl (pass1step att) s0).totalNightShift
        = s0.totalNightShift + (List.range' 1 (getDaysInMonth month year)).countP (isCodeDay att ("N")) :=
    fun s0 => foldl_proj_count _ _ _ (pass1step_totalNightShift att) _ s0
  have hP1Abs : ∀ s0,
      ((List.range' 1 (getDaysInMonth month year)).foldl (pass1step att) s0).totalAbsent
        = s0.totalAbsent + (List.range' 1 (getDaysInMonth month year)).countP (isCodeDay att ("A")) :=
    fun s0 => foldl_proj_count _ _ _ (pass1step_totalAbsent att) _ s0
  have hP1Lea : ∀ s0,
      ((List.range' 1 (getDaysInMonth month year)).foldl (pass1step att) s0).totalOnLeave
        = s0.totalOnLeave + (List.range' 1 (getDaysInMonth month year)).countP (isCodeDay att ("L")) :=
    fun s0 => foldl_proj_count _ _ _ (pass1step_totalOnLeave att) _ s0
  have hP1Pre : ∀ s0,
      ((List.range' 1 (getDaysInMonth month year)).foldl (pass1step att) s0).totalPresent
        = s0.totalPresent + ((List.range' 1 (getDaysInMonth month year)).map (presentContrib att)).sum :=
    fun s0 => foldl_proj_sum _ _ _ (pass1step_totalPresent att) _ s0
  have hHDW :
      ((List.range' 1 (getDaysInMonth month year)).foldl
          (pass2step att (getSundaysInMonth month year) (getHolidaysInMonth month year))
          ((List.range' 1 (getDaysInMonth month year)).foldl (pass1step att) zeroSummaries)).totalHolyDayWorking
        = (List.range' 1 (getDaysInMonth month year)).countP
            (holyDayWorkingPred att (getSundaysInMonth month year) (getHolidaysInMonth month year)) := by
    rw [foldl_proj_count _ _ _
        (pass2step_totalHolyDayWorking att (getSundaysInMonth month year) (getHolidaysInMonth month year))]
    rw [foldl_proj_const _ _ (fun s d => (pass1step_preserves att s d).1)]
    simp [zeroSummaries]
  have hODW :
      ((List.range' 1 (getDaysInMonth month year)).foldl
          (pass2step att (getSundaysInMonth month year) (getHolidaysInMonth month year))
          ((List.range' 1 (getDaysInMonth month year)).foldl (pass1step att) zeroSummaries)).totalOffDayWorking
        = (List.range' 1 (getDaysInMonth month year)).countP (offDayWorkingPred att) := by
    rw [foldl_proj_count _ _ _
        (pass2step_totalOffDayWorking att (getSundaysInMonth month year) (getHolidaysInMonth month year))]
    rw [foldl_proj_const _ _ (fun s d => (pass1step_preserves att s d).2.1)]
    simp [zeroSummaries]
  simp only [calculateSummaries]
  refine ⟨?_, ?_, ?_, ?_, ?_, ?_, ?_, ?_, ?_, ?_⟩
  · rw [hOff, hP1Off]; simp [zeroSummaries]
  · rw [hSun, hP1Sun]; simp [zeroSummaries]
  · rw [hHol, hP1Hol]; simp [zeroSummaries]
  · rw [hNig, hP1Nig]; simp [zeroSummaries]
  · rw [hAbs, hP1Abs]; simp [zeroSummaries]
  · rw [hLea, hP1Lea]; simp [zeroSummaries]
  · exact hHDW
  · exact hODW
  · rw [hPre, hP1Pre]; simp [zeroSummaries, presentUnfloored]
  · rw [hPre, hP1Pre, hOff, hP1Off, hSun, hP1Sun, hHol, hP1Hol, hNig, hP1Nig, hHDW, hODW]
    simp [zeroSummaries, presentUnfloored]

theorem ratFloor_eq_floor (q : Rat) : q.floor = ⌊q⌋ :=
  (Rat.floor_def' q).trans Rat.floor_def.symm

/-- Claim C1: for every day-to-code attendance mapping, `calculateSummaries`
computes `totalWorkingDays` as
`floor(totalPresent_unfloored + totalOff + totalSundays + totalHolidays +
totalNightShift + 2*totalHolyDayWorking + 0.5*totalOffDayWorking)`, where
`totalPresent_unfloored` (here `presentUnfloored`, summing 1 per P, 1 per
WFH and 0.5 per HD day) is the pass-1 accumulator before flooring; the
returned `totalPresent` is floored only after this formula has consumed the
unfloored value. -/
theorem claim_C1_workingDaysFormula (att : Attendance) (month : String) (year : Nat) :
    (calculateSummaries att month year).totalWorkingDays
      = (presentUnfloored att (getDaysInMonth month year)
          + ((calculateSummaries att month year).totalOff : Rat)
          + ((calculateSummaries att month year).totalSundays : Rat)
          + ((calculateSummaries att month year).totalHolidays : Rat)
          + ((calculateSummaries att month year).totalNightShift : Rat)
          + ((calculateSummaries att month year).totalHolyDayWorking : Rat) * 2
          + ((calculateSummaries att month year).totalOffDayWorking : Rat) * (1/2)).floor
    ∧ (calculateSummaries att month year).totalPresent
        = ((presentUnfloored att (getDaysInMonth month year)).floor : Rat) := by
  obtain ⟨hOff, hSun, hHol, hNig, hAbs, hLea, hHDW, hODW, hPres, hTWD⟩ :=
    calculateSummaries_char att month year
  refine ⟨?_, hPres⟩
  rw [hOff, hSun, hHol, hNig, hHDW, hODW]
  exact hTWD

/-- Claim C2: in the second pass, `totalHolyDayWorking` counts exactly the
days of 1..daysInMonth whose day is a Sunday (per `getSundaysInMonth`) or a
listed holiday and whose code uppercases to P, N or WFH;
`totalOffDayWorking` counts exactly the days with `day > 1` whose previous
day is coded `O` (after uppercasing) and whose code uppercases to P, N or
WFH; day 1 can never contribute to `totalOffDayWorking`. -/
theorem claim_C2_compositeCounters (att : Attendance) (month : String) (year : Nat) :
    (calculateSummaries att month year).totalHolyDayWorking
      = (List.range' 1 (getDaysInMonth month year)).countP
          (holyDayWorkingPred att (getSundaysInMonth month year)
            (getHolidaysInMonth month year))
    ∧ (calculateSummaries att month year).totalOffDayWorking
      = (List.range' 1 (getDaysInMonth month year)).countP (offDayWorkingPred att)
    ∧ offDayWorkingPred att 1 = false := by
  obtain ⟨_, _, _, _, _, _, hHDW, hODW, _, _⟩ := calculateSummaries_char att month year
  exact ⟨hHDW, hODW, by simp [offDayWorkingPred]⟩

theorem pass1step_none (att : Attendance) (s : Summaries) (d : Nat)
    (h : attGet att d = none) : pass1step att s d = s := by
  simp [pass1step, h]

theorem pass2step_none (att : Attendance) (sund holi : List Nat) (s : Summaries)
    (d : Nat) (h : attGet att d = none) : pass2step att sund holi s d = s := by
  simp [pass2step, h]

theorem pass1step_congr (a1 a2 : Attendance) (s : Summaries) (d : Nat)
    (h : attGet a1 d = attGet a2 d) : pass1step a1 s d = pass1step a2 s d := by
  unfold pass1step
  rw [h]

theorem pass2step_congr (a1 a2 : Attendance) (sund holi : List Nat) (s : Summaries)
    (d : Nat) (h : attGet a1 d = attGet a2 d)
    (hprev : 1 < d → ((attGet a1 (d - 1)).map toUpperCase == some ("O"))
          = ((attGet a2 (d - 1)).map toUpperCase == some ("O"))) :
    pass2step a1 sund holi s d = pass2step a2 sund holi s d := by
  unfold pass2step
  by_cases hd : d > 1
  · simp only [h, hprev hd]
  · simp only [h, if_neg hd]

theorem pass1step_unrecognized (att : Attendance) (s : Summaries) (d : Nat)
    (code : String) (h : attGet att d = some code)
    (hcode : toUpperCase code ∉ ATTENDANCE_CODES) : pass1step att s d = s := by
  unfold pass1step
  simp only [h]
  by_cases hc : code = ""
  · simp [hc]
  · simp only [if_neg hc]
    split_ifs <;> simp_all [ATTENDANCE_CODES]

theorem pass2step_unrecognized (att : Attendance) (sund holi : List Nat)
    (s : Summaries) (d : Nat) (code : String) (h : attGet att d = some code)
    (hcode : toUpperCase code ∉ ATTENDANCE_CODES) :
    pass2step att sund holi s d = s := by
  unfold pass2step
  simp only [h]
  by_cases hc : code = ""
  · simp [hc]
  · simp only [if_neg hc]
    have hw : (toUpperCase code == "P" || toUpperCase code == "N"
        || toUpperCase code == "WFH") = false := by
      simp only [Bool.or_eq_false_iff, beq_eq_false_iff_ne]
      refine ⟨⟨?_, ?_⟩, ?_⟩ <;> intro he <;> apply hcode <;> simp [ATTENDANCE_CODES, he]
    simp [hw]

theorem foldl_id_of_step_id {σ : Type} (step : σ → Nat → σ)
    (h : ∀ s d, step s d = s) : ∀ (l : List Nat) (s : σ), l.foldl step s = s := by
  intro l
  induction l with
  | nil => intro s; rfl
  | cons a l ih => intro s; rw [List.foldl_cons, h]; exact ih s

/-- Claim C3: `calculateSummaries` is total with no error path: the empty
mapping yields the all-zero summary (with `totalWorkingDays = 0`), a key
outside 1..daysInMonth is ignored, and an entry whose code is unrecognized
(not in the nine-code registry after uppercasing, including the empty
string) contributes nothing. -/
theorem claim_C3_totality :
    (∀ month year, calculateSummaries [] month year = zeroSummaries)
    ∧ (∀ (att : Attendance) (month : String) (year day : Nat) (code : String),
        day = 0 ∨ getDaysInMonth month year < day →
        calculateSummaries ((day, code) :: att) month year
          = calculateSummaries att month year)
    ∧ (∀ (att : Attendance) (month : String) (year day : Nat) (code : String),
        attGet att day = none → toUpperCase code ∉ ATTENDANCE_CODES →
        calculateSummaries ((day, code) :: att) month year
          = calculateSummaries att month year) := by
  refine ⟨?_, ?_, ?_⟩
  · intro month year
    simp only [calculateSummaries]
    rw [foldl_id_of_step_id _ (fun s d => pass1step_none [] s d rfl),
        foldl_id_of_step_id _ (fun s d =>
          pass2step_none [] (getSundaysInMonth month year)
            (getHolidaysInMonth month year) s d rfl)]
    simp [zeroSummaries, ratFloor_eq_floor]
  · intro att month year day code hday
    have hc1 : ∀ (s : Summaries) (x : Nat),
        x ∈ List.range' 1 (getDaysInMonth month year) →
        pass1step ((day, code) :: att) s x = pass1step att s x := by
      intro s x hx
      rw [List.mem_range'_1] at hx
      have hxd : x ≠ day := by rcases hday with h0 | hgt <;> omega
      exact pass1step_congr _ _ _ _ (attGet_cons_ne att day x code hxd)
    have hc2 : ∀ (s : Summaries) (x : Nat),
        x ∈ List.range' 1 (getDaysInMonth month year) →
        pass2step ((day, code) :: att) (getSundaysInMonth month year)
            (getHolidaysInMonth month year) s x
          = pass2step att (getSundaysInMonth month year)
            (getHolidaysInMonth month year) s x := by
      intro s x hx
      rw [List.mem_range'_1] at hx
      have hxd : x ≠ day := by rcases hday with h0 | hgt <;> omega
      refine pass2step_congr _ _ _ _ _ _ (attGet_cons_ne att day x code hxd) ?_
      intro hx1
      have hpd : x - 1 ≠ day := by rcases hday with h0 | hgt <;> omega
      rw [attGet_cons_ne att day (x - 1) code hpd]
    simp only [calculateSummaries]
    rw [foldl_congrOn _ _ _ hc1, foldl_congrOn _ _ _ hc2]
  · intro att month year day code h0 hcode
    have hneO : toUpperCase code ≠ ("O") := by
      intro he
      exact hcode (by rw [he]; simp [ATTENDANCE_CODES])
    have hc1 : ∀ (s : Summaries) (x : Nat),
        x ∈ List.range' 1 (getDaysInMonth month year) →
        pass1step ((day, code) :: att) s x = pass1step att s x := by
      intro s x _
      by_cases hxd : x = day
      · subst hxd
        rw [pass1step_unrecognized ((x, code) :: att) s x code
            (attGet_cons_self att x code) hcode, pass1step_none att s x h0]
      · exact pass1step_congr _ _ _ _ (attGet_cons_ne att day x code hxd)
    have hc2 : ∀ (s : Summaries) (x : Nat),
        x ∈ List.range' 1 (getDaysInMonth month year) →
        pass2step ((day, code) :: att) (getSundaysInMonth month year)
            (getHolidaysInMonth month year) s x
          = pass2step att (getSundaysInMonth month year)
            (getHolidaysInMonth month year) s x := by
      intro s x _
      by_cases hxd : x = day
      · subst hxd
        rw [pass2step_unrecognized ((x, code) :: att) _ _ s x code
            (attGet_cons_self att x code) hcode,
          pass2step_none att _ _ s x h0]
      · refine pass2step_congr _ _ _ _ _ _ (attGet_cons_ne att day x code hxd) ?_
        intro hx1
        by_cases hpd : x - 1 = day
        · rw [hpd, attGet_cons_self, h0]
          simp [hneO]
        · rw [attGet_cons_ne att day (x - 1) code hpd]
    simp only [calculateSummaries]
    rw [foldl_congrOn _ _ _ hc1, foldl_congrOn _ _ _ hc2]

/-- Witness for claim C3 at concrete inputs: the empty mapping in January
2024, the out-of-range key 32, and the unrecognized code `X`. -/
theorem claim_C3_totality_witness :
    calculateSummaries [] ("Jan") 2024 = zeroSummaries
    ∧ calculateSummaries [(32, "P")] ("Jan") 2024 = calculateSummaries [] ("Jan") 2024
    ∧ calculateSummaries [(1, "X")] ("Jan") 2024 = calculateSummaries [] ("Jan") 2024 := by
  refine ⟨claim_C3_totality.1 ("Jan") 2024,
    claim_C3_totality.2.1 [] ("Jan") 2024 32 ("P") (Or.inr (by decide)),
    claim_C3_totality.2.2 [] ("Jan") 2024 1 ("X") rfl (by decide)⟩

/-- Claim C4: `normalizeAttendanceCode` is idempotent and closed: for every
string the result is the empty string or one of the nine codes, and
`normalize("a") = "A"`. -/
theorem claim_C4_normalizeIdempotentClosed :
    (∀ x : String,
      normalizeAttendanceCode (normalizeAttendanceCode x) = normalizeAttendanceCode x)
    ∧ (∀ x : String,
      normalizeAttendanceCode x = "" ∨ normalizeAttendanceCode x ∈ ATTENDANCE_CODES)
    ∧ normalizeAttendanceCode ("a") = "A" := by
  have hclosed : ∀ x : String,
      normalizeAttendanceCode x = "" ∨ normalizeAttendanceCode x ∈ ATTENDANCE_CODES := by
    intro x
    unfold normalizeAttendanceCode
    by_cases hx : x = ""
    · simp [hx]
    · simp only [if_neg hx]
      by_cases hA : toUpperCase x = "A"
      · simp [hA, ATTENDANCE_CODES]
      · simp only [if_neg hA]
        by_cases hmem : ATTENDANCE_CODES.contains (toUpperCase x)
        · right
          simp only [if_pos hmem]
          simpa using hmem
        · left
          have hnm : toUpperCase x ∉ ATTENDANCE_CODES := by simpa using hmem
          simp [hnm]
  refine ⟨?_, hclosed, by decide⟩
  intro x
  rcases hclosed x with h | h
  · rw [h]; rfl
  · simp only [ATTENDANCE_CODES, List.mem_cons, List.not_mem_nil, or_false] at h
    rcases h with h | h | h | h | h | h | h | h | h <;> rw [h] <;> decide

theorem jsFindIndex_neg {α : Type} (p : α → Bool) :
    ∀ l : List α, (∀ x ∈ l, p x = false) → jsFindIndex p l = -1 := by
  intro l
  induction l with
  | nil => intro _; rfl
  | cons a l ih =>
    intro h
    have ha : p a = false := h a (by simp)
    have hl : jsFindIndex p l = -1 := ih (fun x hx => h x (by simp [hx]))
    simp [jsFindIndex, ha, hl]

/-- Claim C5: `getDaysInMonth` returns each month's standard length for
every year; for February it returns 29 exactly under the standard leap-year
rule (with the four concrete instances 2024/2023/2000/1900), and any
unknown month name yields 31. -/
theorem claim_C5_daysInMonth (year : Nat) :
    getDaysInMonth ("Jan") year = 31
    ∧ getDaysInMonth ("Feb") year
        = (if (year % 4 = 0 ∧ year % 100 ≠ 0) ∨ year % 400 = 0 then 29 else 28)
    ∧ getDaysInMonth ("Mar") year = 31
    ∧ getDaysInMonth ("Apr") year = 30
    ∧ getDaysInMonth ("May") year = 31
    ∧ getDaysInMonth ("Jun") year = 30
    ∧ getDaysInMonth ("Jul") year = 31
    ∧ getDaysInMonth ("Aug") year = 31
    ∧ getDaysInMonth ("Sep") year = 30
    ∧ getDaysInMonth ("Oct") year = 31
    ∧ getDaysInMonth ("Nov") year = 30
    ∧ getDaysInMonth ("Dec") year = 31
    ∧ getDaysInMonth ("Feb") 2024 = 29
    ∧ getDaysInMonth ("Feb") 2023 = 28
    ∧ getDaysInMonth ("Feb") 2000 = 29
    ∧ getDaysInMonth ("Feb") 1900 = 28
    ∧ (∀ month : String, month ∉ MONTH_NAMES → getDaysInMonth month year = 31) := by
  have hFeb : getDaysInMonth ("Feb") year
      = (if (year % 4 = 0 ∧ year % 100 ≠ 0) ∨ year % 400 = 0 then 29 else 28) := by
    have h0 : getDaysInMonth ("Feb") year
        = if ((year % 4 == 0 && year % 100 != 0) || year % 400 == 0) = true
          then 29 else 28 := rfl
    rw [h0]
    by_cases h4 : year % 4 = 0 <;> by_cases h100 : year % 100 = 0
      <;> by_cases h400 : year % 400 = 0 <;> simp [h4, h100, h400]
  refine ⟨rfl, hFeb, rfl, rfl, rfl, rfl, rfl, rfl, rfl, rfl, rfl, rfl,
    by decide, by decide, by decide, by decide, ?_⟩
  intro month hm
  have hidx : jsFindIndex (fun m => m.1 == month) MONTHS = -1 := by
    apply jsFindIndex_neg
    intro x hx
    have hx1 : x.1 ∈ MONTH_NAMES := by
      fin_cases hx <;> decide
    simp only [beq_eq_false_iff_ne]
    exact fun he => hm (he ▸ hx1)
  norm_num [getDaysInMonth, hidx, jsGet]

/-- Witness for claim C5: the unknown month name `XXX` in 2024 yields 31. -/
theorem claim_C5_daysInMonth_witness : getDaysInMonth ("XXX") 2024 = 31 :=
  (claim_C5_daysInMonth 2024).2.2.2.2.2.2.2.2.2.2.2.2.2.2.2.2 ("XXX") (by decide)

theorem attGet_map_set_self (d : Nat) (c : String) :
    ∀ a : Attendance, a.any (fun p => p.1 == d) = true →
      attGet (a.map (fun p => if p.1 == d then (d, c) else p)) d = some c := by
  intro a
  induction a with
  | nil => intro h; simp at h
  | cons p l ih =>
    intro h
    by_cases hp : p.1 = d
    · simp [attGet, List.find?_cons, hp]
    · have h' : l.any (fun p => p.1 == d) = true := by
        simp [List.any_cons] at h
        rcases h with h | h
        · exact absurd h hp
        · simpa using h
      have := ih h'
      simp only [attGet] at this ⊢
      simpa [List.map_cons, List.find?_cons, hp] using this

theorem attGet_append_single_self (d : Nat) (c : String) :
    ∀ a : Attendance, a.any (fun p => p.1 == d) = false →
      attGet (a ++ [(d, c)]) d = some c := by
  intro a
  induction a with
  | nil => simp [attGet, List.find?_cons]
  | cons p l ih =>
    intro h
    simp [List.any_cons] at h
    simp only [attGet, List.cons_append, List.find?_cons]
    have hp : (p.1 == d) = false := by simpa using h.1
    simp only [hp]
    exact ih (by simpa using h.2)

theorem attGet_cons (p : Nat × String) (l : Attendance) (x : Nat) :
    attGet (p :: l) x = if p.1 == x then some p.2 else attGet l x := by
  simp only [attGet, List.find?_cons]
  cases hb : (p.1 == x) with
  | true => simp [hb]
  | false => simp [hb]

theorem attGet_attSet_self (a : Attendance) (d : Nat) (c : String) :
    attGet (attSet a d c) d = some c := by
  unfold attSet
  split_ifs with h
  · exact attGet_map_set_self d c a h
  · exact attGet_append_single_self d c a (Bool.eq_false_iff.mpr h)

theorem attGet_map_set_ne (a : Attendance) (d : Nat) (c : String) (x : Nat)
    (hx : x ≠ d) :
    attGet (a.map (fun p => if p.1 == d then (d, c) else p)) x = attGet a x := by
  induction a with
  | nil => rfl
  | cons p l ih =>
    rw [List.map_cons]
    by_cases hp : p.1 = d
    · rw [show (if (p.1 == d) = true then (d, c) else p) = (d, c) by simp [hp]]
      have hdx : (d == x) = false := by simpa using Ne.symm hx
      have hpx : (p.1 == x) = false := by rw [hp]; simpa using Ne.symm hx
      rw [attGet_cons, attGet_cons]
      simp only [hdx, hpx, Bool.false_eq_true, if_false]
      exact ih
    · rw [show (if (p.1 == d) = true then (d, c) else p) = p by simp [hp]]
      rw [attGet_cons, attGet_cons, ih]

theorem attGet_append_single_ne (a : Attendance) (d : Nat) (c : String) (x : Nat)
    (hx : x ≠ d) : attGet (a ++ [(d, c)]) x = attGet a x := by
  induction a with
  | nil =>
    have hdx : (d == x) = false := by simpa using Ne.symm hx
    rw [List.nil_append, attGet_cons]
    simp [hdx, attGet]
  | cons p l ih =>
    rw [List.cons_append, attGet_cons, attGet_cons, ih]

theorem attGet_attSet_ne (a : Attendance) (d : Nat) (c : String) (x : Nat)
    (hx : x ≠ d) : attGet (attSet a d c) x = attGet a x := by
  unfold attSet
  split_ifs with h
  · exact attGet_map_set_ne a d c x hx
  · exact attGet_append_single_ne a d c x hx

theorem attGet_attDel_self (a : Attendance) (d : Nat) :
    attGet (attDel a d) d = none := by
  unfold attDel
  induction a with
  | nil => rfl
  | cons p l ih =>
    by_cases hp : p.1 = d
    · simpa [List.filter_cons, hp] using ih
    · have hpd : (p.1 != d) = true := by simpa using hp
      have hpd' : (p.1 == d) = false := by simpa using hp
      simpa [List.filter_cons, hpd, attGet_cons, hpd'] using ih

theorem attGet_attDel_ne (a : Attendance) (d : Nat) (x : Nat) (hx : x ≠ d) :
    attGet (attDel a d) x = attGet a x := by
  unfold attDel
  induction a with
  | nil => rfl
  | cons p l ih =>
    by_cases hp : p.1 = d
    · have hpx : (p.1 == x) = false := by rw [hp]; simpa using Ne.symm hx
      have hpd : (p.1 != d) = false := by simpa using hp
      rw [List.filter_cons]
      simp only [hpd, Bool.false_eq_true, if_false, attGet_cons, hpx]
      exact ih
    · have hpd : (p.1 != d) = true := by simpa using hp
      rw [List.filter_cons, if_pos hpd, attGet_cons, attGet_cons, ih]

theorem Store.get_set_self (s : Store) (r : Nat) (a : Attendance)
    (h : r < s.atts.length) : (s.set r a).get r = a := by
  simp [Store.get, Store.set, List.getElem?_set_eq_of_lt _ h]

theorem attGet_fillStep_ne (code : String) (a : Attendance) (day x : Nat)
    (hx : x ≠ day) : attGet (fillStep code a day) x = attGet a x := by
  unfold fillStep
  split_ifs with h
  · exact attGet_attSet_ne a day code x hx
  · rfl

theorem fill_foldl_notmem (code : String) :
    ∀ (l : List Nat) (a : Attendance) (d : Nat), d ∉ l →
      attGet (l.foldl (fillStep code) a) d = attGet a d := by
  intro l
  induction l with
  | nil => intro a d _; rfl
  | cons y l ih =>
    intro a d hd
    rw [List.foldl_cons, ih _ _ (fun hm => hd (by simp [hm])),
        attGet_fillStep_ne code a y d (fun he => hd (by simp [he]))]

theorem fill_foldl_stable (code : String) :
    ∀ (l : List Nat) (a : Attendance) (d : Nat), attGet a d = some code →
      attGet (l.foldl (fillStep code) a) d = some code := by
  intro l
  induction l with
  | nil => intro a d h; exact h
  | cons y l ih =>
    intro a d h
    rw [List.foldl_cons]
    apply ih
    by_cases hy : d = y
    · subst hy
      unfold fillStep
      split_ifs with hf
    
      · exact attGet_attSet_self a d code
      · exact h
    · rw [attGet_fillStep_ne code a y d hy]
      exact h

theorem fill_foldl_keep (code c : String) (hc : c ≠ "") :
    ∀ (l : List Nat) (a : Attendance) (d : Nat), attGet a d = some c →
      attGet (l.foldl (fillStep code) a) d = some c := by
  intro l
  induction l with
  | nil => intro a d h; exact h
  | cons y l ih =>
    intro a d h
    rw [List.foldl_cons]
    apply ih
    by_cases hy : d = y
    · subst hy
      unfold fillStep
      have hf : isFalsyAt a d = false := by
        simp [isFalsyAt, h]
        exact hc
      rw [hf]
      simp only [Bool.false_eq_true, if_false]
      exact h
    · rw [attGet_fillStep_ne code a y d hy]
      exact h

theorem fill_foldl_fill (code : String) :
    ∀ (l : List Nat) (a : Attendance) (d : Nat), d ∈ l →
      isFalsyAt a d = true →
      attGet (l.foldl (fillStep code) a) d = some code := by
  intro l
  induction l with
  | nil => intro a d hd _; simp at hd
  | cons y l ih =>
    intro a d hd hf
    rw [List.foldl_cons]
    by_cases hy : d = y
    · subst hy
      apply fill_foldl_stable
      unfold fillStep
      rw [hf]
      simp only [if_true]
      exact attGet_attSet_self a d code
    · apply ih
      · rcases List.mem_cons.mp hd with h | h
        · exact absurd h hy
        · exact h
      · unfold isFalsyAt at hf ⊢
        rw [attGet_fillStep_ne code a y d hy]
        exact hf

/-- Claim C6 (refuting evaluation): the record mutators are not pure in the
source.  `{ ...employee }` is a shallow copy, so the copy shares the input's
attendance object, and `updatedEmployee.attendance[day] = ...` (resp. the
fill loop of `markWeekends`) mutates it in place: at the concrete input
below, the attendance object the ORIGINAL record references differs after
the call from what it held before. -/
theorem claim_C6_mutatorsMutateInput :
    Store.get (updateEmployeeAttendance (baseStore []) baseEmployee 1 ("P") ("Jan") 2024).1
        baseEmployee.attendance
      ≠ Store.get (baseStore []) baseEmployee.attendance
    ∧ Store.get (markWeekends (baseStore []) baseEmployee ("Jan") 2024 ("S")).1
        baseEmployee.attendance
      ≠ Store.get (baseStore []) baseEmployee.attendance := by
  constructor <;> decide

/-- Claim C7 (counterexample): `updateEmployeeAttendance` does NOT normalize
the supplied code — it only uppercases it.  With the unrecognized raw code
`xyz`, the claim predicts the day key is absent (since
`normalizeAttendanceCode "xyz" = ""`), but the code stores `XYZ`. -/
theorem claim_C7_counterexample :
    ¬ (attGet (Store.get
          (updateEmployeeAttendance (baseStore []) baseEmployee 1 ("xyz") ("Jan") 2024).1
          ((updateEmployeeAttendance (baseStore []) baseEmployee 1 ("xyz") ("Jan") 2024).2.attendance)) 1
        = (if normalizeAttendanceCode ("xyz") = "" then none
           else some (normalizeAttendanceCode ("xyz")))) := by
  decide

/-- Claim C7 (amended): the single-cell edit UPPERCASES the supplied code
before storing it (no normalization against the nine-code registry: any
non-empty string is stored uppercased), deletes the day's key when the code
is empty, and re-derives the summary of the returned record from the
updated attendance via `calculateSummaries`. -/
theorem claim_C7_amended (store : Store) (employee : Employee) (day : Nat)
    (code month : String) (year : Nat)
    (h : employee.attendance < store.atts.length) :
    attGet (Store.get (updateEmployeeAttendance store employee day code month year).1
        ((updateEmployeeAttendance store employee day code month year).2.attendance)) day
      = (if code = "" then none else some (toUpperCase code))
    ∧ (updateEmployeeAttendance store employee day code month year).2.summaries
      = calculateSummaries
          (Store.get (updateEmployeeAttendance store employee day code month year).1
            ((updateEmployeeAttendance store employee day code month year).2.attendance))
          month year := by
  unfold updateEmployeeAttendance
  simp only
  rw [Store.get_set_self store employee.attendance _ h]
  constructor
  · by_cases hc : code = ""
    · simp only [hc, if_pos rfl]
      simp only [ne_eq, not_true_eq_false, if_false, if_true]
      exact attGet_attDel_self _ day
    · rw [if_neg hc, if_pos hc]
      exact attGet_attSet_self _ day (toUpperCase code)
  · rfl

/-- Witness for the amended claim C7 at a concrete input: storing `p` on
day 5 yields `P` at day 5. -/
theorem claim_C7_amended_witness :
    attGet (Store.get (updateEmployeeAttendance (baseStore []) baseEmployee 5 ("p") ("Jan") 2024).1
        ((updateEmployeeAttendance (baseStore []) baseEmployee 5 ("p") ("Jan") 2024).2.attendance)) 5
      = some ("P") := by
  have h := (claim_C7_amended (baseStore []) baseEmployee 5 ("p") ("Jan") 2024 (by decide)).1
  rw [if_neg (by decide : ¬("p" : String) = "")] at h
  exact h

/-- Claim C8 (counterexample): a day whose stored value is the empty string
HAS an existing entry, yet `markWeekends` overwrites it, because the
`!attendance[day]` test treats an empty-string value as unmarked.  Day 7 of
January 2024 is a Sunday; it holds `""` before the call and `"S"` after, so
it did not keep its existing entry and a day with an existing entry
received the fill code. -/
theorem claim_C8_counterexample :
    attGet (Store.get (baseStore [(7, "")]) baseEmployee.attendance) 7 = some ("")
    ∧ attGet (Store.get (markWeekends (baseStore [(7, "")]) baseEmployee ("Jan") 2024 ("S")).1
        ((markWeekends (baseStore [(7, "")]) baseEmployee ("Jan") 2024 ("S")).2.attendance)) 7
      = some ("S")
    ∧ attGet (Store.get (markWeekends (baseStore [(7, "")]) baseEmployee ("Jan") 2024 ("S")).1
        ((markWeekends (baseStore [(7, "")]) baseEmployee ("Jan") 2024 ("S")).2.attendance)) 7
      ≠ attGet (Store.get (baseStore [(7, "")]) baseEmployee.attendance) 7 := by
  refine ⟨by decide, by decide, by decide⟩

/-- Claim C8 (amended): `markWeekends` (resp. `markHolidays`) keeps every
day that holds a NON-EMPTY code unchanged, fills exactly the Sundays (resp.
listed holidays) whose entry is absent or the empty string with the fill
code, leaves days outside the Sunday (resp. holiday) list untouched, and
re-derives the summary from the updated attendance. -/
theorem claim_C8_amended (store : Store) (employee : Employee) (month : String)
    (year : Nat) (code : String) (day : Nat)
    (h : employee.attendance < store.atts.length) :
    ((∀ c : String, c ≠ "" →
        attGet (Store.get store employee.attendance) day = some c →
        attGet (Store.get (markWeekends store employee month year code).1
          ((markWeekends store employee month year code).2.attendance)) day = some c)
      ∧ (day ∈ getSundaysInMonth month year →
          isFalsyAt (Store.get store employee.attendance) day = true →
          attGet (Store.get (markWeekends store employee month year code).1
            ((markWeekends store employee month year code).2.attendance)) day = some code)
      ∧ (day ∉ getSundaysInMonth month year →
          attGet (Store.get (markWeekends store employee month year code).1
            ((markWeekends store employee month year code).2.attendance)) day
            = attGet (Store.get store employee.attendance) day)
      ∧ (markWeekends store employee month year code).2.summaries
          = calculateSummaries
              (Store.get (markWeekends store employee month year code).1
                ((markWeekends store employee month year code).2.attendance)) month year)
    ∧ ((∀ c : String, c ≠ "" →
        attGet (Store.get store employee.attendance) day = some c →
        attGet (Store.get (markHolidays store employee month year code).1
          ((markHolidays store employee month year code).2.attendance)) day = some c)
      ∧ (day ∈ getHolidaysInMonth month year →
          isFalsyAt (Store.get store employee.attendance) day = true →
          attGet (Store.get (markHolidays store employee month year code).1
            ((markHolidays store employee month year code).2.attendance)) day = some code)
      ∧ (day ∉ getHolidaysInMonth month year →
          attGet (Store.get (markHolidays store employee month year code).1
            ((markHolidays store employee month year code).2.attendance)) day
            = attGet (Store.get store employee.attendance) day)
      ∧ (markHolidays store employee month year code).2.summaries
          = calculateSummaries
              (Store.get (markHolidays store employee month year code).1
                ((markHolidays store employee month year code).2.attendance)) month year) := by
  have hW : Store.get (markWeekends store employee month year code).1
        ((markWeekends store employee month year code).2.attendance)
      = (getSundaysInMonth month year).foldl (fillStep code)
          (Store.get store employee.attendance) := by
    unfold markWeekends
    exact Store.get_set_self store employee.attendance _ h
  have hH : Store.get (markHolidays store employee month year code).1
        ((markHolidays store employee month year code).2.attendance)
      = (getHolidaysInMonth month year).foldl (fillStep code)
          (Store.get store employee.attendance) := by
    unfold markHolidays
    exact Store.get_set_self store employee.attendance _ h
  refine ⟨⟨?_, ?_, ?_, ?_⟩, ⟨?_, ?_, ?_, ?_⟩⟩
  · intro c hc hgot
    rw [hW]
    exact fill_foldl_keep code c hc _ _ day hgot
  · intro hmem hf
    rw [hW]
    exact fill_foldl_fill code _ _ day hmem hf
  · intro hnot
    rw [hW]
    exact fill_foldl_notmem code _ _ day hnot
  · rw [hW]; rfl
  · intro c hc hgot
    rw [hH]
    exact fill_foldl_keep code c hc _ _ day hgot
  · intro hmem hf
    rw [hH]
    exact fill_foldl_fill code _ _ day hmem hf
  · intro hnot
    rw [hH]
    exact fill_foldl_notmem code _ _ day hnot
  · rw [hH]; rfl

/-- Witness for the amended claim C8: with only day 2 marked `A`, marking
weekends of January 2024 fills Sunday 7 with `S` and keeps day 2's `A`. -/
theorem claim_C8_amended_witness :
    attGet (Store.get (markWeekends (baseStore [(2, "A")]) baseEmployee ("Jan") 2024 ("S")).1
        ((markWeekends (baseStore [(2, "A")]) baseEmployee ("Jan") 2024 ("S")).2.attendance)) 7
      = some ("S")
    ∧ attGet (Store.get (markWeekends (baseStore [(2, "A")]) baseEmployee ("Jan") 2024 ("S")).1
        ((markWeekends (baseStore [(2, "A")]) baseEmployee ("Jan") 2024 ("S")).2.attendance)) 2
      = some ("A") := by
  have h7 := claim_C8_amended (baseStore [(2, "A")]) baseEmployee ("Jan") 2024 ("S") 7 (by decide)
  have h2 := claim_C8_amended (baseStore [(2, "A")]) baseEmployee ("Jan") 2024 ("S") 2 (by decide)
  exact ⟨h7.1.2.1 (by decide) (by decide), h2.1.1 ("A") (by decide) (by decide)⟩

/-- Claim C9: `calculateConsecutiveAbsences` scans the marked days in
ascending order, closes a run exactly when the next marked day is not coded
`A` or the sequence ends, and records `{start, end, count}` per closed run:
on `{3:'A',4:'A',5:'A',6:'P'}` it returns exactly one instance
`{start 3, end 5, count 3}` with `maxConsecutive = 3` and
`totalInstances = 1`; a run touching the last marked day is closed too
(`{5:'P',6:'A',7:'A'}` yields `{start 6, end 7, count 2}`). -/
theorem claim_C9_consecutiveAbsences :
    calculateConsecutiveAbsences [(3, "A"), (4, "A"), (5, "A"), (6, "P")]
      = ⟨3, 1, [⟨3, 5, 3⟩]⟩
    ∧ calculateConsecutiveAbsences [(5, "P"), (6, "A"), (7, "A")]
      = ⟨2, 1, [⟨6, 7, 2⟩]⟩ := by
  exact ⟨by decide, by decide⟩

theorem consecGo_instances_identity (att : Attendance) :
    ∀ (l : List Nat) (st : ConsecState),
      (∀ i ∈ st.instances, i.start = (i.endDay : Int) - i.count + 1) →
      ∀ i ∈ (consecGo att st l).instances,
        i.start = (i.endDay : Int) - i.count + 1 := by
  intro l
  induction l with
  | nil => intro st h i hi; exact h i hi
  | cons day rest ih =>
    intro st h i hi
    rw [consecGo.eq_def] at hi
    refine ih _ ?_ i hi
    intro j hj
    simp only at hj
    split_ifs at hj
    all_goals try exact h j hj
    rcases List.mem_append.mp hj with hm | hm
    · exact h j hm
    · have hq : j = ⟨(day : Int) - (st.currentConsecutive + 1) + 1, day,
          st.currentConsecutive + 1⟩ := by simpa using hm
      subst hq
      simp only [AbsenceRun.mk.injEq]
      omega

/-- Claim C10: absence runs follow adjacency in the sorted list of marked
days, not calendar adjacency: every reported instance satisfies
`start = end - count + 1` (so `start` can name a day with no entry at all),
and `{3:'A',5:'A'}` yields the single instance `{start 4, end 5, count 2}`
with `maxConsecutive = 2` and `totalInstances = 1`. -/
theorem claim_C10_runAdjacency :
    (∀ (att : Attendance) (i : AbsenceRun),
      i ∈ (calculateConsecutiveAbsences att).instances →
      i.start = (i.endDay : Int) - i.count + 1)
    ∧ calculateConsecutiveAbsences [(3, "A"), (5, "A")] = ⟨2, 1, [⟨4, 5, 2⟩]⟩ := by
  constructor
  · intro att i hi
    exact consecGo_instances_identity att
      (sortAscending ((att.map Prod.fst).dedup)) ⟨0, 0, 0, []⟩
      (by intro j hj; simp at hj) i hi
  · decide

/-- Witness for claim C10 at the concrete run of `{3:'A',5:'A'}`: the
reported instance `{start 4, end 5, count 2}` satisfies the identity. -/
theorem claim_C10_runAdjacency_witness :
    (⟨4, 5, 2⟩ : AbsenceRun).start
      = ((⟨4, 5, 2⟩ : AbsenceRun).endDay : Int) - (⟨4, 5, 2⟩ : AbsenceRun).count + 1 :=
  claim_C10_runAdjacency.1 [(3, "A"), (5, "A")] ⟨4, 5, 2⟩ (by decide)
